import Mathlib

/-!
Shallow embedding of the MUFCR6K2025 acquisition-and-storage core
(`src/app/fetcher.py` and `src/app/store.py`), with theorems checking the
natural-language specification against it.

Modelling conventions:
* Python `float` values are modelled as exact rationals (`ℚ`); no claim under
  scrutiny probes binary floating-point boundary behaviour.
* Wall-clock instants (`datetime`) are rationals counting seconds; a call that
  reads `datetime.now(timezone.utc)` takes the instant as an explicit `now`
  argument.
* JSON-like Python values are the inductive `Val`; Python exceptions that a
  code path can raise are the `PyErr` type, and fallible code returns
  `Except PyErr _`.
* `deque` buffers are Lean lists, front (oldest) first.
-/

/-- Python substring containment `needle in hay` (helper over char lists):
does `pre` start the list `l`? -/
def listStartsWith : List Char → List Char → Bool
  | [], _ => true
  | _ :: _, [] => false
  | c :: cs, d :: ds => c == d && listStartsWith cs ds

/-- Does `needle` occur contiguously inside `hay`? -/
def listHasSub (needle : List Char) : List Char → Bool
  | [] => needle.isEmpty
  | d :: ds => listStartsWith needle (d :: ds) || listHasSub needle ds

/-- Python `needle in hay` for strings. -/
def pyIn (needle hay : String) : Bool :=
  listHasSub needle.toList hay.toList

/-- Parse a decimal digit. -/
def digitVal? (c : Char) : Option Nat :=
  if c.isDigit then some (c.toNat - '0'.toNat) else none

/-- Parse a nonempty run of digits as a natural number. -/
def digitsToNat? : List Char → Option Nat
  | [] => none
  | l => l.foldl (fun acc c => match acc, digitVal? c with
      | some n, some d => some (10 * n + d)
      | _, _ => none) (some 0)

/-- Python `float(s)` on a string, restricted to plain signed decimal
notation `[-]digits[.digits]`; anything else fails (ValueError). -/
def strToRat? (s : String) : Option ℚ :=
  let core : List Char → Option ℚ := fun l =>
    match l.splitOn '.' with
    | [intPart] => (digitsToNat? intPart).map (fun n => (n : ℚ))
    | [intPart, fracPart] =>
      match digitsToNat? intPart, digitsToNat? fracPart with
      | some n, some f => some ((n : ℚ) + (f : ℚ) / ((10 : ℚ) ^ fracPart.length))
      | _, _ => none
    | _ => none
  match s.toList with
  | '-' :: rest => (core rest).map Neg.neg
  | l => core l

/-- JSON-like Python runtime values flowing through the fetcher. -/
inductive Val where
  | vnull : Val
  | vbool : Bool → Val
  | vnum : ℚ → Val
  | vstr : String → Val
  | vobj : List (String × Val) → Val
  | varr : List Val → Val

/-- Python exception classes the embedded code can raise. -/
inductive PyErr where
  | typeError : PyErr
  | valueError : PyErr
  | attributeError : PyErr
deriving DecidableEq, Repr

/-- Python `d.get(key)` on a dict (assoc list, first binding wins). -/
def dictGet (fields : List (String × Val)) (key : String) : Option Val :=
  (fields.find? (fun kv => kv.1 == key)).map (fun kv => kv.2)

/-- Python `float(v)`: numbers pass through, booleans coerce, decimal strings
parse (else ValueError), everything else raises TypeError. -/
def pyFloat : Val → Except PyErr ℚ
  | Val.vnum q => Except.ok q
  | Val.vbool b => Except.ok (if b then 1 else 0)
  | Val.vstr s => match strToRat? s with
      | some q => Except.ok q
      | none => Except.error PyErr.valueError
  | _ => Except.error PyErr.typeError

/-- pydantic lax validation of an `Optional[float]` field (`mufd`):
None stays None, numeric values coerce, anything else is rejected. -/
def pyFloatOpt : Val → Except PyErr (Option ℚ)
  | Val.vnull => Except.ok none
  | v => (pyFloat v).map some

/-- `app.models.StationData` after validation: the fields the resolver stores
per canonical station (`name`, `latitude`, `longitude`, `mufd`, `timestamp`). -/
structure StationData where
  name : String
  latitude : ℚ
  longitude : ℚ
  mufd : Option ℚ
  timestamp : Option ℚ
deriving DecidableEq, Repr

/-- Python dict assignment `m[k] = v` on the result map (overwrite or append),
preserving insertion order as CPython does. -/
def mapSet (m : List (String × StationData)) (k : String) (v : StationData) :
    List (String × StationData) :=
  match m with
  | [] => [(k, v)]
  | (k', v') :: rest =>
    if k' = k then (k, v) :: rest else (k', v') :: mapSet rest k v

/-- Python `m.get(k)` on the result map. -/
def mapGet? (m : List (String × StationData)) (k : String) : Option StationData :=
  (m.find? (fun kv => kv.1 == k)).map (fun kv => kv.2)

/-- `fetcher.py` lines 81-85: classification of a record by lower-cased
name substrings (`"roquetes"`/`"ebre"` then `"arenosillo"`). -/
def nameClassify (name_lower : String) : Option String :=
  if pyIn "roquetes" name_lower || pyIn "ebre" name_lower then some "roquetes"
  else if pyIn "arenosillo" name_lower then some "arenosillo"
  else none

/-- `fetcher.py` lines 87-97: geographic fallback against the two centroids
with a strict 0.5-degree box test, Roquetes checked first. -/
def geoClassify (lat lon : ℚ) : Option String :=
  if |lat - 204/5| < 1/2 ∧ |lon - 1/2| < 1/2 then some "roquetes"
  else if |lat - 371/10| < 1/2 ∧ |lon - (-67/10)| < 1/2 then some "arenosillo"
  else none

/-- Combined classification of one record: name match first, geographic
fallback only when no name substring matched. -/
def classifyStation (name : String) (lat lon : ℚ) : Option String :=
  match nameClassify name.toLower with
  | some nn => some nn
  | none => geoClassify lat lon

/-- The body of the `for station in stations_data:` loop of
`filter_spanish_stations` (`fetcher.py` lines 66-113) for one record:
returns `none` when the record is skipped, `some (key, data)` when it is
classified, and an error when the Python code would raise. -/
def processRecord (now : ℚ) (station : Val) :
    Except PyErr (Option (String × StationData)) :=
  match station with
  | Val.vobj fields =>
    match (dictGet fields "station").getD (Val.vobj []) with
    | Val.vobj si =>
      match (dictGet si "name").getD (Val.vstr "") with
      | Val.vstr name =>
        let mufdVal := (dictGet fields "mufd").getD Val.vnull
        do
          let lat ← pyFloat ((dictGet si "latitude").getD (Val.vnum 0))
          let lon ← pyFloat ((dictGet si "longitude").getD (Val.vnum 0))
          match classifyStation name lat lon with
          | none => pure none
          | some nn => do
            let mufd ← pyFloatOpt mufdVal
            pure (some (nn, ⟨name, lat, lon, mufd, some now⟩))
      | _ => Except.error PyErr.attributeError
    | _ => Except.error PyErr.attributeError
  | _ => Except.ok none

/-- One iteration of the `filter_spanish_stations` loop acting on the
accumulated `spanish_stations` dict. -/
def filterStep (now : ℚ) (m : List (String × StationData)) (station : Val) :
    Except PyErr (List (String × StationData)) := do
  match ← processRecord now station with
  | none => pure m
  | some (k, v) => pure (mapSet m k v)

/-- `fetcher.py` lines 59-116, `filter_spanish_stations`: fold the loop body
over the record list, building the `spanish_stations` dict; every stored
timestamp is stamped `now` (line 104), never read from the payload. -/
def filter_spanish_stations (now : ℚ) (stations_data : List Val) :
    Except PyErr (List (String × StationData)) :=
  stations_data.foldlM (filterStep now) []

/-- `fetcher.py` line 14. -/
def MAX_RETRIES : Nat := 3

/-- `fetcher.py` line 15 (seconds). -/
def RETRY_DELAYS : List ℚ := [1/2, 1, 2]

/-- Observable outcome of one `fetch_stations_data` call: the returned value,
how many GET attempts were issued, and the sleeps actually awaited. -/
structure FetchOutcome where
  result : Option (List Val)
  attempts : Nat
  sleeps : List ℚ

/-- The retry loop of `fetch_stations_data` (`fetcher.py` lines 30-42):
`attempt` is the loop counter, `remaining` the iterations range(3) has left,
`transport n` the outcome of the GET on attempt `n` (`none` = any exception). -/
def fetchAux (transport : Nat → Option (List Val)) :
    Nat → Nat → List ℚ → FetchOutcome
  | attempt, 0, sleeps => ⟨none, attempt, sleeps⟩
  | attempt, remaining + 1, sleeps =>
    match transport attempt with
    | some data => ⟨some data, attempt + 1, sleeps⟩
    | none =>
      let delay := RETRY_DELAYS.getD (min attempt (RETRY_DELAYS.length - 1)) 0
      if attempt < MAX_RETRIES - 1 then
        fetchAux transport (attempt + 1) remaining (sleeps ++ [delay])
      else ⟨none, attempt + 1, sleeps⟩

/-- `fetcher.py` lines 25-42, `fetch_stations_data`: up to `MAX_RETRIES`
attempts; every exception is caught, and exhaustion returns `None`. -/
def fetch_stations_data (transport : Nat → Option (List Val)) : FetchOutcome :=
  fetchAux transport 0 MAX_RETRIES []

/-- `fetcher.py` lines 137-144: the `latest_timestamp` scan over the values of
the station map, then the `datetime.now` fallback. -/
def latestTimestamp (m : List (String × StationData)) (now : ℚ) : Option ℚ :=
  let scanned := m.foldl (fun acc kv =>
    match kv.2.timestamp, acc with
    | some t, none => some t
    | some t, some u => if u < t then some t else some u
    | none, acc' => acc') none
  match scanned with
  | none => some now
  | some t => some t

/-- `fetcher.py` lines 119-146, `get_muf_data`: fetch, bail out with
`(None, None, None)` on a falsy payload, otherwise resolve stations and
return the two MUF values plus the most recent stamped timestamp. -/
def get_muf_data (transport : Nat → Option (List Val)) (now : ℚ) :
    Except PyErr (Option ℚ × Option ℚ × Option ℚ) :=
  match (fetch_stations_data transport).result with
  | none => Except.ok (none, none, none)
  | some stations_data =>
    if stations_data.isEmpty then Except.ok (none, none, none)
    else do
      let m ← filter_spanish_stations now stations_data
      let r := match mapGet? m "roquetes" with
        | some sd => sd.mufd
        | none => none
      let a := match mapGet? m "arenosillo" with
        | some sd => sd.mufd
        | none => none
      pure (r, a, latestTimestamp m now)

/-- `store.py` line 11 (minutes). -/
def WINDOW_MINUTES : ℚ := 60

/-- `store.py` line 12 (seconds). -/
def STALE_THRESHOLD_SECONDS : ℚ := 600

/-- `app.models.MUFData`: one stored series point. -/
structure MUFData where
  roquetes : Option ℚ
  arenosillo : Option ℚ
  avg : Option ℚ
  ts : ℚ
  status : String
deriving DecidableEq, Repr

/-- `app.models.MUFSeries`: the column-wise projection `get_series` returns. -/
structure MUFSeries where
  timestamps : List ℚ
  roquetes : List (Option ℚ)
  arenosillo : List (Option ℚ)
  avg : List (Option ℚ)
deriving DecidableEq, Repr

/-- `store.py` lines 54-61, `MUFStore._cleanup_old_data`: pop points older
than `now - 60 minutes` from the front of the buffer (prefix trim). -/
def cleanup_old_data (now : ℚ) (buffer : List MUFData) : List MUFData :=
  let cutoff := now - WINDOW_MINUTES * 60
  buffer.dropWhile (fun p => decide (p.ts < cutoff))

/-- `store.py` lines 29-45: the `MUFData` point `add_data_point` constructs —
average computed only when both values exist, initial freshness from
`now - timestamp` against the stale threshold. -/
def mkMUFData (roquetes arenosillo : Option ℚ) (timestamp now : ℚ) : MUFData :=
  let avg : Option ℚ := match roquetes, arenosillo with
    | some r, some a => some ((r + a) / 2)
    | _, _ => none
  let status := if now - timestamp ≤ STALE_THRESHOLD_SECONDS then "OK" else "STALE"
  ⟨roquetes, arenosillo, avg, timestamp, status⟩

/-- `store.py` lines 24-52, `MUFStore.add_data_point`: construct the point,
append it to the buffer, then cleanup. -/
def add_data_point (roquetes arenosillo : Option ℚ) (timestamp now : ℚ)
    (buffer : List MUFData) : List MUFData :=
  cleanup_old_data now (buffer ++ [mkMUFData roquetes arenosillo timestamp now])

/-- `store.py` lines 63-82, `MUFStore.get_latest`: return the last point, or
`none` on an empty buffer; when the point is older than the stale threshold
its stored status is overwritten to `"STALE"` in place (second component is
the buffer after the call). -/
def get_latest (now : ℚ) (buffer : List MUFData) :
    Option MUFData × List MUFData :=
  match buffer.getLast? with
  | none => (none, buffer)
  | some latest =>
    if STALE_THRESHOLD_SECONDS < now - latest.ts then
      let latest' := { latest with status := "STALE" }
      (some latest', buffer.dropLast ++ [latest'])
    else (some latest, buffer)

/-- `store.py` lines 84-104, `MUFStore.get_series`: filter the buffer to
points with `ts ≥ now - window`, project into columns; the buffer is read,
never written (second component is the buffer after the call). -/
def get_series (now window_minutes : ℚ) (buffer : List MUFData) :
    MUFSeries × List MUFData :=
  let cutoff := now - window_minutes * 60
  let filtered := buffer.filter (fun p => decide (cutoff ≤ p.ts))
  (⟨filtered.map (fun p => p.ts), filtered.map (fun p => p.roquetes),
    filtered.map (fun p => p.arenosillo), filtered.map (fun p => p.avg)⟩,
   buffer)

/-- `store.py` lines 106-110, `MUFStore.get_window_size`. -/
def get_window_size (buffer : List MUFData) : Nat :=
  buffer.length

/-- Buffer states reachable through the store's public mutating surface
(`__init__`/`clear` give the empty buffer; `add_data_point` and the in-place
status update of `get_latest` are the only writers). -/
inductive Reachable : List MUFData → Prop where
  | empty : Reachable []
  | add (r a : Option ℚ) (ts now : ℚ) {b : List MUFData} :
      Reachable b → Reachable (add_data_point r a ts now b)
  | latest (now : ℚ) {b : List MUFData} :
      Reachable b → Reachable (get_latest now b).2

/-- A well-formed upstream record for a canonical-station candidate:
`{"station": {"name": ..., "latitude": ..., "longitude": ...}, "mufd": ...}`. -/
def mkStationRecord (name : String) (lat lon : ℚ) (mufd : Option ℚ) : Val :=
  Val.vobj [("station", Val.vobj [("name", Val.vstr name),
    ("latitude", Val.vnum lat), ("longitude", Val.vnum lon)]),
    ("mufd", match mufd with | some q => Val.vnum q | none => Val.vnull)]

/-- The average invariant of a stored point: `avg` is defined iff both station
values are, and then equals their exact arithmetic mean. -/
def AvgInv (p : MUFData) : Prop :=
  (p.avg.isSome = true ↔ (p.roquetes.isSome = true ∧ p.arenosillo.isSome = true))
  ∧ ∀ x y, p.roquetes = some x → p.arenosillo = some y →
      p.avg = some ((x + y) / 2)

/-- Chronological sortedness of a buffer (non-decreasing timestamps). -/
def ChronoB (b : List MUFData) : Prop :=
  List.Pairwise (fun p q => p.ts ≤ q.ts) b

theorem mem_of_mem_cleanup {now : ℚ} {b : List MUFData} {p : MUFData}
    (h : p ∈ cleanup_old_data now b) : p ∈ b :=
  (List.dropWhile_sublist _).subset h

theorem mem_of_mem_add {r a : Option ℚ} {ts now : ℚ} {b : List MUFData}
    {p : MUFData} (h : p ∈ add_data_point r a ts now b) :
    p ∈ b ∨ p = mkMUFData r a ts now := by
  have h' := mem_of_mem_cleanup h
  rcases List.mem_append.mp h' with hb | hp
  · exact Or.inl hb
  · exact Or.inr (List.mem_singleton.mp hp)

theorem avgInv_mkMUFData (r a : Option ℚ) (ts now : ℚ) :
    AvgInv (mkMUFData r a ts now) := by
  cases r <;> cases a <;> simp [AvgInv, mkMUFData]

theorem avgInv_status (p : MUFData) (s : String) (h : AvgInv p) :
    AvgInv { p with status := s } := h

theorem mem_of_mem_getLatest {now : ℚ} {b : List MUFData} {p : MUFData}
    (h : p ∈ (get_latest now b).2) :
    p ∈ b ∨ ∃ q ∈ b, p = { q with status := "STALE" } := by
  unfold get_latest at h
  cases hg : b.getLast? with
  | none => rw [hg] at h; exact Or.inl h
  | some latest =>
    rw [hg] at h
    by_cases hs : STALE_THRESHOLD_SECONDS < now - latest.ts
    · simp only [if_pos hs] at h
      rcases List.mem_append.mp h with hd | hp
      · exact Or.inl ((List.dropLast_sublist _).subset hd)
      · exact Or.inr ⟨latest, List.mem_of_getLast?_eq_some hg,
          List.mem_singleton.mp hp⟩
    · simp only [if_neg hs] at h; exact Or.inl h

/-- C1: for every point in any buffer reachable through the store's public
operations, the average is defined iff both station values are defined, and
when defined it equals `(a + b) / 2` exactly; `add_data_point` never derives
an average from a single present value. -/
theorem store_avg_invariant {b : List MUFData} (hb : Reachable b) :
    ∀ p ∈ b, AvgInv p := by
  induction hb with
  | empty => intro p hp; cases hp
  | add r a ts now _ ih =>
    intro p hp
    rcases mem_of_mem_add hp with hpb | hpnew
    · exact ih p hpb
    · rw [hpnew]; exact avgInv_mkMUFData r a ts now
  | latest now _ ih =>
    intro p hp
    rcases mem_of_mem_getLatest hp with hpb | ⟨q, hq, hpq⟩
    · exact ih p hpb
    · rw [hpq]; exact avgInv_status q _ (ih q hq)

/-- C1 witness: the invariant instantiated on the buffer obtained by one
append of `(10, 20)`, whose point carries `avg = 15`. -/
theorem store_avg_invariant_witness :
    Reachable (add_data_point (some 10) (some 20) 0 0 []) ∧
    ∀ p ∈ add_data_point (some 10) (some 20) 0 0 [], AvgInv p :=
  ⟨Reachable.add (some 10) (some 20) 0 0 Reachable.empty,
   store_avg_invariant (Reachable.add (some 10) (some 20) 0 0 Reachable.empty)⟩

/-- C2 counterexample: with a transport failing on every attempt, the loop
makes 3 attempts but the sleeps actually awaited are `[0.5, 1]`, not the
claimed `[0.5, 1, 2]` — after the last failed attempt the function returns
`None` without awaiting the computed 2-second delay. -/
theorem fetch_sleeps_counterexample :
    (fetch_stations_data (fun _ => none)).attempts = 3 ∧
    (fetch_stations_data (fun _ => none)).sleeps = [1/2, 1] ∧
    (fetch_stations_data (fun _ => none)).sleeps ≠ [1/2, 1, 2] := by
  have hs : (fetch_stations_data (fun _ => none)).sleeps = [1/2, 1] := by
    with_unfolding_all rfl
  refine ⟨by with_unfolding_all rfl, hs, ?_⟩
  rw [hs]
  simp

/-- C2 amended: if the underlying transport fails on every attempt,
`fetch_stations_data` makes exactly 3 attempts, awaits delays of 0.5s and 1s
between consecutive attempts (the 2s delay is computed but never awaited,
because the final attempt returns immediately), and returns `None` rather
than letting an exception escape. -/
theorem fetch_retry_budget (transport : Nat → Option (List Val))
    (hfail : ∀ n, transport n = none) :
    (fetch_stations_data transport).result = none ∧
    (fetch_stations_data transport).attempts = 3 ∧
    (fetch_stations_data transport).sleeps = [1/2, 1] := by
  have ht : transport = fun _ => none := funext hfail
  subst ht
  refine ⟨?_, ?_, ?_⟩ <;> with_unfolding_all rfl

/-- C2 witness: the amended theorem applied to the always-failing transport. -/
theorem fetch_retry_budget_witness :
    (∀ n : Nat, (fun _ : Nat => (none : Option (List Val))) n = none) ∧
    ((fetch_stations_data (fun _ => none)).result = none ∧
     (fetch_stations_data (fun _ => none)).attempts = 3 ∧
     (fetch_stations_data (fun _ => none)).sleeps = [1/2, 1]) :=
  ⟨fun _ => rfl, fetch_retry_budget (fun _ => none) (fun _ => rfl)⟩

/-- C3: the code contradicts the claim — on a record whose name matches no
station and whose `latitude` field is present but null, the uncaught
`float(None)` raises TypeError inside `filter_spanish_stations` and aborts
the whole batch (the following well-formed Roquetes record is lost), where
the spec requires malformed records to be skipped as non-matches. -/
theorem filter_malformed_record_raises :
    filter_spanish_stations 0
      [Val.vobj [("station", Val.vobj [("name", Val.vstr "Madrid"),
         ("latitude", Val.vnull)])],
       Val.vobj [("station", Val.vobj [("name", Val.vstr "Roquetes")]),
         ("mufd", Val.vnum 10)]]
      = Except.error PyErr.typeError := by
  with_unfolding_all rfl

/-- C4 counterexample: eviction is lazy (it runs only inside
`add_data_point`), so after one append at t=0 and no further mutation,
`get_series` at now=5400 with a 120-minute window returns the point whose
timestamp 0 is older than `now - retentionWindow = 1800`. -/
theorem series_retention_counterexample :
    ((get_series 5400 120 (add_data_point (some 10) (some 20) 0 0 [])).1.timestamps
      = [0]) ∧
    ¬ (∀ t ∈ (get_series 5400 120
        (add_data_point (some 10) (some 20) 0 0 [])).1.timestamps,
        5400 - WINDOW_MINUTES * 60 ≤ t) := by
  have hts : (get_series 5400 120
      (add_data_point (some 10) (some 20) 0 0 [])).1.timestamps = [0] := by
    with_unfolding_all rfl
  refine ⟨hts, fun hall => ?_⟩
  have h0 := hall 0 (by rw [hts]; exact List.mem_singleton.mpr rfl)
  rw [WINDOW_MINUTES] at h0
  norm_num at h0

/-- C4 amended: `get_series` returns only points with `ts ≥ now - w·60`, in
chronological order, and does not mutate the buffer; when `w` does not
exceed the 60-minute retention window no returned point is older than
`now - retentionWindow`, but a wider `w` can expose points older than the
retention horizon when no mutating call has evicted them yet. -/
theorem get_series_ordered_window (now w : ℚ) (b : List MUFData)
    (hsorted : ChronoB b) :
    (∀ t ∈ ((get_series now w b).1).timestamps, now - w * 60 ≤ t)
    ∧ (w ≤ WINDOW_MINUTES → ∀ t ∈ ((get_series now w b).1).timestamps,
        now - WINDOW_MINUTES * 60 ≤ t)
    ∧ List.Pairwise (· ≤ ·) ((get_series now w b).1).timestamps
    ∧ (get_series now w b).2 = b := by
  have hwin : ∀ t ∈ ((get_series now w b).1).timestamps, now - w * 60 ≤ t := by
    intro t ht
    simp only [get_series, List.mem_map] at ht
    obtain ⟨p, hp, rfl⟩ := ht
    exact of_decide_eq_true (List.mem_filter.mp hp).2
  refine ⟨hwin, ?_, ?_, rfl⟩
  · intro hw t ht
    have h1 := hwin t ht
    rw [WINDOW_MINUTES] at hw ⊢
    nlinarith
  · have hfil : List.Pairwise (fun p q : MUFData => p.ts ≤ q.ts)
        (b.filter (fun p => decide (now - w * 60 ≤ p.ts))) :=
      hsorted.sublist (List.filter_sublist b)
    exact List.pairwise_map.mpr hfil

/-- C4 witness: the amended theorem applied to a one-point chronological
buffer with the default 60-minute window. -/
theorem get_series_ordered_window_witness :
    ChronoB [⟨some 10, some 20, some 15, 0, "OK"⟩] ∧
    ((∀ t ∈ ((get_series 0 60 [⟨some 10, some 20, some 15, 0, "OK"⟩]).1).timestamps,
        (0 : ℚ) - 60 * 60 ≤ t)
     ∧ ((60 : ℚ) ≤ WINDOW_MINUTES →
        ∀ t ∈ ((get_series 0 60 [⟨some 10, some 20, some 15, 0, "OK"⟩]).1).timestamps,
          (0 : ℚ) - WINDOW_MINUTES * 60 ≤ t)
     ∧ List.Pairwise (· ≤ ·)
        ((get_series 0 60 [⟨some 10, some 20, some 15, 0, "OK"⟩]).1).timestamps
     ∧ (get_series 0 60 [⟨some 10, some 20, some 15, 0, "OK"⟩]).2
        = [⟨some 10, some 20, some 15, 0, "OK"⟩]) :=
  ⟨List.pairwise_singleton _ _,
   get_series_ordered_window 0 60 [⟨some 10, some 20, some 15, 0, "OK"⟩]
     (List.pairwise_singleton _ _)⟩

theorem dropWhile_ts_bound (c : ℚ) (l : List MUFData)
    (hs : List.Pairwise (fun p q : MUFData => p.ts ≤ q.ts) l) :
    ∀ p ∈ l.dropWhile (fun p => decide (p.ts < c)), c ≤ p.ts := by
  induction l with
  | nil => simp
  | cons h t ih =>
    rw [List.pairwise_cons] at hs
    intro p hp
    rw [List.dropWhile_cons] at hp
    by_cases hc : h.ts < c
    · simp only [decide_eq_true hc, if_true] at hp
      exact ih hs.2 p hp
    · simp only [decide_eq_false hc, if_false] at hp
      rcases List.mem_cons.mp hp with rfl | hpt
      · exact le_of_not_lt hc
      · exact le_trans (le_of_not_lt hc) (hs.1 p hpt)

theorem cleanup_mem_bound (now : ℚ) (l : List MUFData)
    (hs : List.Pairwise (fun p q : MUFData => p.ts ≤ q.ts) l) :
    ∀ p ∈ cleanup_old_data now l, now - WINDOW_MINUTES * 60 ≤ p.ts := by
  simpa [cleanup_old_data] using
    dropWhile_ts_bound (now - WINDOW_MINUTES * 60) l hs

/-- C5: for a chronological buffer, an acquisition-time stamp `T ≤ now`, and
`T` no older than the buffered points (the spec's documented caller
contract), after `add_data_point` completes every previously stored point
with `ts < T - retentionWindow` is gone from the buffer (hence from all
subsequent `get_series`/`get_window_size` results, which only read the
buffer), and every surviving point has `ts ≥ now - retentionWindow`. -/
theorem add_data_point_eviction (r a : Option ℚ) (T now : ℚ)
    (b : List MUFData) (hsorted : ChronoB b)
    (hmono : ∀ p ∈ b, p.ts ≤ T) (hT : T ≤ now) :
    (∀ p ∈ b, p.ts < T - WINDOW_MINUTES * 60 → p ∉ add_data_point r a T now b)
    ∧ ∀ p ∈ add_data_point r a T now b, now - WINDOW_MINUTES * 60 ≤ p.ts := by
  have hsorted' : List.Pairwise (fun p q : MUFData => p.ts ≤ q.ts)
      (b ++ [mkMUFData r a T now]) := by
    rw [List.pairwise_append]
    refine ⟨hsorted, List.pairwise_singleton _ _, ?_⟩
    intro p hp q hq
    rw [List.mem_singleton] at hq
    subst hq
    simpa [mkMUFData] using hmono p hp
  have hbound : ∀ p ∈ add_data_point r a T now b,
      now - WINDOW_MINUTES * 60 ≤ p.ts := by
    intro p hp
    rw [add_data_point] at hp
    exact cleanup_mem_bound now _ hsorted' p hp
  refine ⟨?_, hbound⟩
  intro p _ hpold hpmem
  have hge := hbound p hpmem
  linarith

/-- C5 witness: appending a fresh point at T=7200 evicts an hour-old point
stored at ts=0. -/
theorem add_data_point_eviction_witness :
    (ChronoB [⟨none, none, none, 0, "OK"⟩]
     ∧ (∀ p ∈ [(⟨none, none, none, 0, "OK"⟩ : MUFData)], p.ts ≤ 7200)
     ∧ (7200 : ℚ) ≤ 7200)
    ∧ ((∀ p ∈ [(⟨none, none, none, 0, "OK"⟩ : MUFData)],
          p.ts < 7200 - WINDOW_MINUTES * 60 →
          p ∉ add_data_point (some 1) none 7200 7200 [⟨none, none, none, 0, "OK"⟩])
       ∧ ∀ p ∈ add_data_point (some 1) none 7200 7200 [⟨none, none, none, 0, "OK"⟩],
          (7200 : ℚ) - WINDOW_MINUTES * 60 ≤ p.ts) := by
  have h1 : ChronoB [(⟨none, none, none, 0, "OK"⟩ : MUFData)] :=
    List.pairwise_singleton _ _
  have h2 : ∀ p ∈ [(⟨none, none, none, 0, "OK"⟩ : MUFData)], p.ts ≤ 7200 := by
    intro p hp
    rw [List.mem_singleton] at hp
    subst hp
    norm_num
  exact ⟨⟨h1, h2, le_refl _⟩,
    add_data_point_eviction (some 1) none 7200 7200 _ h1 h2 (le_refl _)⟩

/-- C6: two `get_latest` calls with no intervening append agree on all value
fields and the timestamp; the stored freshness status can only move
`"OK" → "STALE"`, never `"STALE" → "OK"`; and `get_latest` returns `none`
exactly on the empty buffer. -/
theorem get_latest_idempotent (now1 now2 : ℚ) (b : List MUFData) :
    ((get_latest now1 b).1 = none ↔ b = [])
    ∧ ∀ p1 p2, (get_latest now1 b).1 = some p1 →
        (get_latest now2 (get_latest now1 b).2).1 = some p2 →
        p1.roquetes = p2.roquetes ∧ p1.arenosillo = p2.arenosillo ∧
        p1.avg = p2.avg ∧ p1.ts = p2.ts ∧
        ¬(p1.status = "STALE" ∧ p2.status = "OK") := by
  cases hg : b.getLast? with
  | none =>
    have hb : b = [] := List.getLast?_eq_none_iff.mp hg
    subst hb
    constructor
    · simp [get_latest]
    · intro p1 p2 h1 _
      simp [get_latest] at h1
  | some latest =>
    have hbne : b ≠ [] := by
      intro hb
      subst hb
      simp at hg
    constructor
    · unfold get_latest
      rw [hg]
      by_cases hs1 : STALE_THRESHOLD_SECONDS < now1 - latest.ts
      · simp only [if_pos hs1]
        simp [hbne]
      · simp only [if_neg hs1]
        simp [hbne]
    · intro p1 p2 h1 h2
      unfold get_latest at h1 h2
      rw [hg] at h1 h2
      by_cases hs1 : STALE_THRESHOLD_SECONDS < now1 - latest.ts
      · simp only [if_pos hs1] at h1 h2
        have hp1 : p1 = { latest with status := "STALE" } :=
          (Option.some.injEq _ _ ▸ h1).symm
        rw [List.getLast?_concat] at h2
        by_cases hs2 : STALE_THRESHOLD_SECONDS
            < now2 - ({ latest with status := "STALE" } : MUFData).ts
        · simp only [if_pos hs2] at h2
          have hp2 : p2 = { latest with status := "STALE" } :=
            (Option.some.injEq _ _ ▸ h2).symm
          subst hp1
          subst hp2
          refine ⟨rfl, rfl, rfl, rfl, ?_⟩
          rintro ⟨-, hok⟩
          simp at hok
        · simp only [if_neg hs2] at h2
          have hp2 : p2 = { latest with status := "STALE" } :=
            (Option.some.injEq _ _ ▸ h2).symm
          subst hp1
          subst hp2
          refine ⟨rfl, rfl, rfl, rfl, ?_⟩
          rintro ⟨-, hok⟩
          simp at hok
      · simp only [if_neg hs1] at h1 h2
        have hp1 : p1 = latest := (Option.some.injEq _ _ ▸ h1).symm
        rw [hg] at h2
        by_cases hs2 : STALE_THRESHOLD_SECONDS < now2 - latest.ts
        · simp only [if_pos hs2] at h2
          have hp2 : p2 = { latest with status := "STALE" } :=
            (Option.some.injEq _ _ ▸ h2).symm
          subst hp1
          subst hp2
          refine ⟨rfl, rfl, rfl, rfl, ?_⟩
          rintro ⟨-, hok⟩
          simp at hok
        · simp only [if_neg hs2] at h2
          have hp2 : p2 = latest := (Option.some.injEq _ _ ▸ h2).symm
          subst hp1
          subst hp2
          refine ⟨rfl, rfl, rfl, rfl, ?_⟩
          rintro ⟨hstale, hok⟩
          rw [hstale] at hok
          simp at hok

/-- C6 witness: a point appended fresh at ts=0 is returned with status "OK"
at now=0 and with the same values, status "STALE", at now=1000. -/
theorem get_latest_idempotent_witness :
    ((get_latest 0 [⟨some 10, some 20, some 15, 0, "OK"⟩]).1
      = some ⟨some 10, some 20, some 15, 0, "OK"⟩)
    ∧ ((get_latest 1000
        (get_latest 0 [⟨some 10, some 20, some 15, 0, "OK"⟩]).2).1
      = some ⟨some 10, some 20, some 15, 0, "STALE"⟩)
    ∧ ((⟨some 10, some 20, some 15, 0, "OK"⟩ : MUFData).roquetes
        = (⟨some 10, some 20, some 15, 0, "STALE"⟩ : MUFData).roquetes
      ∧ (⟨some 10, some 20, some 15, 0, "OK"⟩ : MUFData).arenosillo
        = (⟨some 10, some 20, some 15, 0, "STALE"⟩ : MUFData).arenosillo
      ∧ (⟨some 10, some 20, some 15, 0, "OK"⟩ : MUFData).avg
        = (⟨some 10, some 20, some 15, 0, "STALE"⟩ : MUFData).avg
      ∧ (⟨some 10, some 20, some 15, 0, "OK"⟩ : MUFData).ts
        = (⟨some 10, some 20, some 15, 0, "STALE"⟩ : MUFData).ts
      ∧ ¬((⟨some 10, some 20, some 15, 0, "OK"⟩ : MUFData).status = "STALE"
          ∧ (⟨some 10, some 20, some 15, 0, "STALE"⟩ : MUFData).status = "OK")) := by
  have h1 : (get_latest 0 [⟨some 10, some 20, some 15, 0, "OK"⟩]).1
      = some ⟨some 10, some 20, some 15, 0, "OK"⟩ := by
    with_unfolding_all rfl
  have h2 : (get_latest 1000
      (get_latest 0 [⟨some 10, some 20, some 15, 0, "OK"⟩]).2).1
      = some ⟨some 10, some 20, some 15, 0, "STALE"⟩ := by
    with_unfolding_all rfl
  exact ⟨h1, h2,
    (get_latest_idempotent 0 1000 [⟨some 10, some 20, some 15, 0, "OK"⟩]).2
      _ _ h1 h2⟩

/-- C7: a record whose lower-cased name contains a StationA substring
(`"roquetes"` or `"ebre"`) is classified as Roquetes by name, whatever its
coordinates; and the geographic fallback is consulted only when neither
station's name substrings match. -/
theorem resolver_name_priority (now : ℚ) (name : String) (lat lon : ℚ)
    (mufd : Option ℚ)
    (h : (pyIn "roquetes" name.toLower || pyIn "ebre" name.toLower) = true) :
    processRecord now (mkStationRecord name lat lon mufd)
      = Except.ok (some ("roquetes", ⟨name, lat, lon, mufd, some now⟩))
    ∧ ∀ (n : String) (la lo : ℚ), nameClassify n.toLower = none →
        classifyStation n la lo = geoClassify la lo := by
  have hname : nameClassify name.toLower = some "roquetes" := by
    simp [nameClassify, h]
  constructor
  · cases mufd with
    | none =>
      simp [processRecord, mkStationRecord, dictGet, pyFloat, pyFloatOpt,
        classifyStation, hname]
      rfl
    | some q =>
      simp [processRecord, mkStationRecord, dictGet, pyFloat, pyFloatOpt,
        classifyStation, hname]
      rfl
  · intro n la lo hn
    unfold classifyStation
    rw [hn]

/-- C7 witness: the spec's example record name at arbitrary coordinates. -/
theorem resolver_name_priority_witness :
    ((pyIn "roquetes" "Roquetes (Ebre) relay".toLower
      || pyIn "ebre" "Roquetes (Ebre) relay".toLower) = true)
    ∧ processRecord 0 (mkStationRecord "Roquetes (Ebre) relay" 123 (-55) none)
      = Except.ok (some ("roquetes", ⟨"Roquetes (Ebre) relay", 123, -55, none, some 0⟩)) :=
  ⟨by with_unfolding_all rfl,
   (resolver_name_priority 0 "Roquetes (Ebre) relay" 123 (-55) none
     (by with_unfolding_all rfl)).1⟩

/-- C8: for a record whose name matches neither station, the geographic
fallback classifies to a station exactly when both coordinate deltas from
that station's centroid are strictly within 0.5 degrees; in particular
(37.05, -6.8) resolves to Arenosillo and (0, 0) resolves to no station. -/
theorem resolver_geo_fallback (name : String) (lat lon : ℚ)
    (h : nameClassify name.toLower = none) :
    (classifyStation name lat lon = some "roquetes" ↔
      (|lat - 204/5| < 1/2 ∧ |lon - 1/2| < 1/2))
    ∧ (classifyStation name lat lon = some "arenosillo" ↔
      (|lat - 371/10| < 1/2 ∧ |lon - (-67/10)| < 1/2))
    ∧ classifyStation name (741/20) (-34/5) = some "arenosillo"
    ∧ classifyStation name 0 0 = none := by
  have hc : ∀ la lo : ℚ, classifyStation name la lo = geoClassify la lo := by
    intro la lo
    unfold classifyStation
    rw [h]
  simp only [hc]
  refine ⟨?_, ?_, ?_, ?_⟩
  · by_cases hA : |lat - 204/5| < 1/2 ∧ |lon - 1/2| < 1/2
    · rw [geoClassify, if_pos hA]
      exact iff_of_true rfl hA
    · by_cases hB : |lat - 371/10| < 1/2 ∧ |lon - (-67/10)| < 1/2
      · rw [geoClassify, if_neg hA, if_pos hB]
        exact iff_of_false (by simp) hA
      · rw [geoClassify, if_neg hA, if_neg hB]
        exact iff_of_false (by simp) hA
  · by_cases hB : |lat - 371/10| < 1/2 ∧ |lon - (-67/10)| < 1/2
    · have hnA : ¬(|lat - 204/5| < 1/2 ∧ |lon - 1/2| < 1/2) := by
        rintro ⟨h2, -⟩
        obtain ⟨h1, -⟩ := hB
        rw [abs_lt] at h1 h2
        obtain ⟨h1l, h1r⟩ := h1
        obtain ⟨h2l, h2r⟩ := h2
        linarith
      rw [geoClassify, if_neg hnA, if_pos hB]
      exact iff_of_true rfl hB
    · by_cases hA : |lat - 204/5| < 1/2 ∧ |lon - 1/2| < 1/2
      · rw [geoClassify, if_pos hA]
        exact iff_of_false (by simp) hB
      · rw [geoClassify, if_neg hA, if_neg hB]
        exact iff_of_false (by simp) hB
  · with_unfolding_all rfl
  · with_unfolding_all rfl

/-- C8 witness: the empty name matches no substring, and the spec's two
concrete coordinate probes behave as claimed. -/
theorem resolver_geo_fallback_witness :
    nameClassify "".toLower = none
    ∧ classifyStation "" (741/20) (-34/5) = some "arenosillo"
    ∧ classifyStation "" 0 0 = none := by
  have h : nameClassify "".toLower = none := by with_unfolding_all rfl
  exact ⟨h, (resolver_geo_fallback "" 0 0 h).2.2.1,
    (resolver_geo_fallback "" 0 0 h).2.2.2⟩

theorem except_bind_error {α β : Type} {e : PyErr} (f : α → Except PyErr β) :
    (Except.error e >>= f) = Except.error e := rfl

theorem except_bind_ok {α β : Type} (a : α) (f : α → Except PyErr β) :
    (Except.ok a >>= f) = f a := rfl

theorem mapGet?_mapSet_self (m : List (String × StationData)) (k : String)
    (v : StationData) : mapGet? (mapSet m k v) k = some v := by
  induction m with
  | nil => simp [mapSet, mapGet?, List.find?]
  | cons kv rest ih =>
    obtain ⟨a, b⟩ := kv
    by_cases hk : a = k
    · subst hk
      simp [mapSet, mapGet?, List.find?]
    · simp only [mapSet]
      rw [if_neg hk]
      simp only [mapGet?, List.find?]
      rw [beq_eq_false_iff_ne.mpr hk]
      exact ih

theorem mapGet?_mapSet_ne (m : List (String × StationData)) (k k' : String)
    (v : StationData) (h : k' ≠ k) :
    mapGet? (mapSet m k' v) k = mapGet? m k := by
  induction m with
  | nil =>
    simp only [mapSet, mapGet?, List.find?]
    rw [beq_eq_false_iff_ne.mpr h]
  | cons kv rest ih =>
    obtain ⟨a, b⟩ := kv
    by_cases hk : a = k'
    · subst hk
      simp only [mapSet, if_true, eq_self_iff_true]
      simp only [mapGet?, List.find?]
      simp only [beq_eq_false_iff_ne.mpr h]
    · simp only [mapSet]
      rw [if_neg hk]
      simp only [mapGet?, List.find?]
      cases hbeq : a == k
      · exact ih
      · rfl

theorem filterStep_of_error {now : ℚ} {station : Val} {e : PyErr}
    (m : List (String × StationData))
    (h : processRecord now station = Except.error e) :
    filterStep now m station = Except.error e := by
  simp only [filterStep, h]
  rfl

theorem filterStep_of_none {now : ℚ} {station : Val}
    (m : List (String × StationData))
    (h : processRecord now station = Except.ok none) :
    filterStep now m station = Except.ok m := by
  simp only [filterStep, h]
  rfl

theorem filterStep_of_some {now : ℚ} {station : Val} {k : String}
    {v : StationData} (m : List (String × StationData))
    (h : processRecord now station = Except.ok (some (k, v))) :
    filterStep now m station = Except.ok (mapSet m k v) := by
  simp only [filterStep, h]
  rfl

theorem foldlM_filterStep_preserves (now : ℚ) (k : String) (sd : StationData)
    (l : List Val) :
    ∀ (m0 m : List (String × StationData)),
      mapGet? m0 k = some sd →
      (∀ r' ∈ l, ∀ v, processRecord now r' = Except.ok v →
        ∀ sd', v ≠ some (k, sd')) →
      l.foldlM (filterStep now) m0 = Except.ok m →
      mapGet? m k = some sd := by
  induction l with
  | nil =>
    intro m0 m h0 _ hrun
    simp only [List.foldlM_nil] at hrun
    cases hrun
    exact h0
  | cons r' t ih =>
    intro m0 m h0 hskip hrun
    rw [List.foldlM_cons] at hrun
    cases hpr : processRecord now r' with
    | error e =>
      rw [filterStep_of_error m0 hpr, except_bind_error] at hrun
      exact Except.noConfusion hrun
    | ok v =>
      cases v with
      | none =>
        rw [filterStep_of_none m0 hpr, except_bind_ok] at hrun
        exact ih m0 m h0 (fun r hr => hskip r (List.mem_cons_of_mem _ hr)) hrun
      | some kv =>
        obtain ⟨k', v'⟩ := kv
        have hk' : k' ≠ k := by
          intro hkk
          subst hkk
          exact hskip r' (List.mem_cons_self r' t) (some (k', v')) hpr v' rfl
        rw [filterStep_of_some m0 hpr, except_bind_ok] at hrun
        exact ih (mapSet m0 k' v') m
          ((mapGet?_mapSet_ne m0 k k' v' hk').symm ▸ h0)
          (fun r hr => hskip r (List.mem_cons_of_mem _ hr)) hrun

/-- C9: within one batch, if a record classifies to station `k` and no later
record in the batch classifies to `k`, the resolver's result for `k` is the
data extracted from that record — later records overwrite earlier ones in
the `spanish_stations` map. -/
theorem resolver_last_record_wins (now : ℚ) (l1 : List Val) (r : Val)
    (l2 : List Val) (k : String) (sd : StationData)
    (m : List (String × StationData))
    (hrun : filter_spanish_stations now (l1 ++ r :: l2) = Except.ok m)
    (hr : processRecord now r = Except.ok (some (k, sd)))
    (hl2 : ∀ r' ∈ l2, ∀ v, processRecord now r' = Except.ok v →
        ∀ sd', v ≠ some (k, sd')) :
    mapGet? m k = some sd := by
  rw [filter_spanish_stations, List.foldlM_append] at hrun
  cases h1 : l1.foldlM (filterStep now) [] with
  | error e =>
    rw [h1, except_bind_error] at hrun
    exact Except.noConfusion hrun
  | ok m0 =>
    rw [h1, except_bind_ok, List.foldlM_cons, filterStep_of_some m0 hr,
      except_bind_ok] at hrun
    exact foldlM_filterStep_preserves now k sd l2 (mapSet m0 k sd) m
      (mapGet?_mapSet_self m0 k sd) hl2 hrun

/-- C9 witness: two records both resolving to Roquetes; the second one's
payload (mufd 20) is what the result map holds. -/
theorem resolver_last_record_wins_witness :
    (filter_spanish_stations 0
        [mkStationRecord "Roquetes" 0 0 (some 10),
         mkStationRecord "EBRE obs" 1 2 (some 20)]
      = Except.ok [("roquetes", ⟨"EBRE obs", 1, 2, some 20, some 0⟩)])
    ∧ (processRecord 0 (mkStationRecord "EBRE obs" 1 2 (some 20))
      = Except.ok (some ("roquetes", ⟨"EBRE obs", 1, 2, some 20, some 0⟩)))
    ∧ mapGet? [("roquetes", ⟨"EBRE obs", 1, 2, some 20, some 0⟩)] "roquetes"
      = some ⟨"EBRE obs", 1, 2, some 20, some 0⟩ := by
  have h1 : filter_spanish_stations 0
      [mkStationRecord "Roquetes" 0 0 (some 10),
       mkStationRecord "EBRE obs" 1 2 (some 20)]
      = Except.ok [("roquetes", ⟨"EBRE obs", 1, 2, some 20, some 0⟩)] := by
    with_unfolding_all rfl
  have h2 : processRecord 0 (mkStationRecord "EBRE obs" 1 2 (some 20))
      = Except.ok (some ("roquetes", ⟨"EBRE obs", 1, 2, some 20, some 0⟩)) := by
    with_unfolding_all rfl
  refine ⟨h1, h2, ?_⟩
  exact resolver_last_record_wins 0 [mkStationRecord "Roquetes" 0 0 (some 10)]
    (mkStationRecord "EBRE obs" 1 2 (some 20)) [] "roquetes"
    ⟨"EBRE obs", 1, 2, some 20, some 0⟩
    [("roquetes", ⟨"EBRE obs", 1, 2, some 20, some 0⟩)]
    h1 h2 (fun r' hr' => absurd hr' (List.not_mem_nil r'))

theorem processRecord_timestamp {now : ℚ} {station : Val} {k : String}
    {sd : StationData}
    (h : processRecord now station = Except.ok (some (k, sd))) :
    sd.timestamp = some now := by
  cases station with
  | vobj fields =>
    unfold processRecord at h
    dsimp only at h
    cases hsi : (dictGet fields "station").getD (Val.vobj []) with
    | vobj si =>
      rw [hsi] at h
      dsimp only at h
      cases hnm : (dictGet si "name").getD (Val.vstr "") with
      | vstr name =>
        rw [hnm] at h
        dsimp only at h
        cases hlat : pyFloat ((dictGet si "latitude").getD (Val.vnum 0)) with
        | error e =>
          rw [hlat, except_bind_error] at h
          exact Except.noConfusion h
        | ok lat =>
          rw [hlat, except_bind_ok] at h
          cases hlon : pyFloat ((dictGet si "longitude").getD (Val.vnum 0)) with
          | error e =>
            rw [hlon, except_bind_error] at h
            exact Except.noConfusion h
          | ok lon =>
            rw [hlon, except_bind_ok] at h
            cases hcl : classifyStation name lat lon with
            | none =>
              rw [hcl] at h
              dsimp only at h
              exact Option.noConfusion (Except.ok.inj h)
            | some nn =>
              rw [hcl] at h
              dsimp only at h
              cases hmu : pyFloatOpt ((dictGet fields "mufd").getD Val.vnull) with
              | error e =>
                rw [hmu, except_bind_error] at h
                exact Except.noConfusion h
              | ok mufd =>
                rw [hmu, except_bind_ok] at h
                have h2 := Option.some.inj (Except.ok.inj h)
                have h3 : sd = ⟨name, lat, lon, mufd, some now⟩ :=
                  (congrArg Prod.snd h2).symm
                rw [h3]
      | vnull => rw [hnm] at h; exact Except.noConfusion h
      | vbool b => rw [hnm] at h; exact Except.noConfusion h
      | vnum q => rw [hnm] at h; exact Except.noConfusion h
      | vobj o => rw [hnm] at h; exact Except.noConfusion h
      | varr l => rw [hnm] at h; exact Except.noConfusion h
    | vnull => rw [hsi] at h; exact Except.noConfusion h
    | vbool b => rw [hsi] at h; exact Except.noConfusion h
    | vnum q => rw [hsi] at h; exact Except.noConfusion h
    | vstr s => rw [hsi] at h; exact Except.noConfusion h
    | varr l => rw [hsi] at h; exact Except.noConfusion h
  | vnull => exact Option.noConfusion (Except.ok.inj h)
  | vbool b => exact Option.noConfusion (Except.ok.inj h)
  | vnum q => exact Option.noConfusion (Except.ok.inj h)
  | vstr s => exact Option.noConfusion (Except.ok.inj h)
  | varr l => exact Option.noConfusion (Except.ok.inj h)

theorem mem_mapSet {m : List (String × StationData)} {k : String}
    {v : StationData} {kv : String × StationData}
    (h : kv ∈ mapSet m k v) : kv ∈ m ∨ kv = (k, v) := by
  induction m with
  | nil =>
    simp only [mapSet] at h
    exact Or.inr (List.mem_singleton.mp h)
  | cons a rest ih =>
    obtain ⟨a1, a2⟩ := a
    by_cases hk : a1 = k
    · simp only [mapSet] at h
      rw [if_pos hk] at h
      rcases List.mem_cons.mp h with rfl | hrest
      · exact Or.inr rfl
      · exact Or.inl (List.mem_cons_of_mem _ hrest)
    · simp only [mapSet] at h
      rw [if_neg hk] at h
      rcases List.mem_cons.mp h with rfl | hrest
      · exact Or.inl (List.mem_cons_self _ _)
      · rcases ih hrest with hin | heq
        · exact Or.inl (List.mem_cons_of_mem _ hin)
        · exact Or.inr heq

theorem foldlM_filterStep_timestamps (now : ℚ) (l : List Val) :
    ∀ (m0 m : List (String × StationData)),
      (∀ kv ∈ m0, kv.2.timestamp = some now) →
      l.foldlM (filterStep now) m0 = Except.ok m →
      ∀ kv ∈ m, kv.2.timestamp = some now := by
  induction l with
  | nil =>
    intro m0 m h0 hrun
    simp only [List.foldlM_nil] at hrun
    cases hrun
    exact h0
  | cons s t ih =>
    intro m0 m h0 hrun
    rw [List.foldlM_cons] at hrun
    cases hpr : processRecord now s with
    | error e =>
      rw [filterStep_of_error m0 hpr, except_bind_error] at hrun
      exact Except.noConfusion hrun
    | ok v =>
      cases v with
      | none =>
        rw [filterStep_of_none m0 hpr, except_bind_ok] at hrun
        exact ih m0 m h0 hrun
      | some kv0 =>
        obtain ⟨k0, v0⟩ := kv0
        rw [filterStep_of_some m0 hpr, except_bind_ok] at hrun
        refine ih (mapSet m0 k0 v0) m ?_ hrun
        intro kv hkv
        rcases mem_mapSet hkv with hin | heq
        · exact h0 kv hin
        · rw [heq]
          exact processRecord_timestamp hpr

theorem filter_spanish_stations_timestamps (now : ℚ) (l : List Val)
    (m : List (String × StationData))
    (h : filter_spanish_stations now l = Except.ok m) :
    ∀ kv ∈ m, kv.2.timestamp = some now := by
  rw [filter_spanish_stations] at h
  exact foldlM_filterStep_timestamps now l [] m (by intro kv hkv; cases hkv) h

theorem latestTimestamp_of_stamped (now : ℚ) (m : List (String × StationData))
    (h : ∀ kv ∈ m, kv.2.timestamp = some now) :
    latestTimestamp m now = some now := by
  unfold latestTimestamp
  have key : ∀ (l : List (String × StationData)),
      (∀ kv ∈ l, kv.2.timestamp = some now) →
      ∀ acc, (acc = none ∨ acc = some now) →
      (l.foldl (fun acc kv =>
        match kv.2.timestamp, acc with
        | some t, none => some t
        | some t, some u => if u < t then some t else some u
        | none, acc' => acc') acc = none ∨
       l.foldl (fun acc kv =>
        match kv.2.timestamp, acc with
        | some t, none => some t
        | some t, some u => if u < t then some t else some u
        | none, acc' => acc') acc = some now) := by
    intro l
    induction l with
    | nil => intro _ acc hacc; simpa using hacc
    | cons kv0 t ih =>
      intro hl acc hacc
      rw [List.foldl_cons]
      refine ih (fun kv hkv => hl kv (List.mem_cons_of_mem _ hkv)) _ ?_
      have hts : kv0.2.timestamp = some now := hl kv0 (List.mem_cons_self _ _)
      rcases hacc with rfl | rfl
      · rw [hts]
        right
        rfl
      · right
        rw [hts]
        dsimp only
        rw [if_neg (lt_irrefl now)]
  rcases key m h none (Or.inl rfl) with hfold | hfold
  · rw [hfold]
  · rw [hfold]

/-- C10: a completed `get_muf_data` call returns `(None, None, None)` exactly
when the fetch produced a falsy payload (`None` after exhausted retries, or
an empty list); on any non-empty record list the returned timestamp is
`some now` — the processing-time instant stamped during resolution, never a
value read from the upstream payload — even when both MUF values are `None`. -/
theorem get_muf_data_failure_timestamp (transport : Nat → Option (List Val))
    (now : ℚ) (r a t : Option ℚ)
    (h : get_muf_data transport now = Except.ok (r, a, t)) :
    ((r = none ∧ a = none ∧ t = none) ↔
      ((fetch_stations_data transport).result = none ∨
       (fetch_stations_data transport).result = some []))
    ∧ ∀ l, (fetch_stations_data transport).result = some l → l ≠ [] →
        t = some now := by
  cases hfr : (fetch_stations_data transport).result with
  | none =>
    unfold get_muf_data at h
    rw [hfr] at h
    have h2 : ((none : Option ℚ), (none : Option ℚ), (none : Option ℚ))
        = (r, a, t) := Except.ok.inj h
    have hr : r = none := (congrArg (fun p => p.1) h2).symm
    have ha : a = none := (congrArg (fun p => p.2.1) h2).symm
    have ht : t = none := (congrArg (fun p => p.2.2) h2).symm
    constructor
    · exact iff_of_true ⟨hr, ha, ht⟩ (Or.inl rfl)
    · intro l hl
      exact Option.noConfusion hl
  | some sd =>
    cases sd with
    | nil =>
      unfold get_muf_data at h
      rw [hfr] at h
      dsimp only [List.isEmpty] at h
      have h2 : ((none : Option ℚ), (none : Option ℚ), (none : Option ℚ))
          = (r, a, t) := Except.ok.inj h
      have hr : r = none := (congrArg (fun p => p.1) h2).symm
      have ha : a = none := (congrArg (fun p => p.2.1) h2).symm
      have ht : t = none := (congrArg (fun p => p.2.2) h2).symm
      constructor
      · exact iff_of_true ⟨hr, ha, ht⟩ (Or.inr rfl)
      · intro l hl hlne
        exact absurd (Option.some.inj hl).symm hlne
    | cons x xs =>
      unfold get_muf_data at h
      rw [hfr] at h
      dsimp only [List.isEmpty] at h
      cases hm : filter_spanish_stations now (x :: xs) with
      | error e =>
        rw [hm, except_bind_error] at h
        exact Except.noConfusion h
      | ok m =>
        rw [hm, except_bind_ok] at h
        have hlt : latestTimestamp m now = some now :=
          latestTimestamp_of_stamped now m
            (filter_spanish_stations_timestamps now (x :: xs) m hm)
        have h2 := Except.ok.inj h
        have ht : t = some now := by
          have h3 : latestTimestamp m now = t := congrArg (fun p => p.2.2) h2
          rw [← h3, hlt]
        constructor
        · constructor
          · rintro ⟨-, -, htn⟩
            rw [ht] at htn
            exact Option.noConfusion htn
          · intro hf
            rcases hf with hfa | hfb
            · exact absurd hfa (by simp)
            · exact absurd hfb (by simp)
        · intro l _ _
          exact ht

/-- C10 witness: with an always-failing transport the call completes with
`(None, None, None)`, matching the failure side of the theorem. -/
theorem get_muf_data_failure_timestamp_witness :
    (get_muf_data (fun _ => none) 0 = Except.ok (none, none, none))
    ∧ (((none : Option ℚ) = none ∧ (none : Option ℚ) = none
        ∧ (none : Option ℚ) = none) ↔
      ((fetch_stations_data (fun _ : Nat => (none : Option (List Val)))).result
          = none ∨
       (fetch_stations_data (fun _ : Nat => (none : Option (List Val)))).result
          = some [])) := by
  have h : get_muf_data (fun _ => none) 0 = Except.ok (none, none, none) := by
    with_unfolding_all rfl
  exact ⟨h, (get_muf_data_failure_timestamp (fun _ => none) 0 none none none h).1⟩
